import Mathlib

/-! The echo responder of `system/utest/echo/echo.c`

A shallow embedding of `wait_for_readable` and `serve_echo_request`, and of
`mtx_trylock` of `third_party/ulib/musl/src/thread/mtx_trylock.c`.

* A buffer is a list of bytes (`List Nat`, each byte read modulo 256).
* Typed accesses through casted pointers become `load`/`store` at a byte
  offset; an access that leaves the buffer has no defined behaviour in C and
  is reported as `Step.out_of_bounds`.
* The kernel is an oracle: the results of the system calls made during one
  call of `serve_echo_request` are the fields of `Kernel`, and the calls that
  are made are recorded in `Outcome.calls`.
* Integers stored in the buffers are little-endian: the request of
  `echo_test` spells the characters C, A, B, B as the word `0x42424143`.
-/

namespace Echo

/-! ## Buffers -/

/-- Value of a run of bytes read as one little-endian integer. -/
def le_value : List Nat → Nat
  | [] => 0
  | b :: bs => b % 256 + 256 * le_value bs

/-- The `n` bytes that represent `v` (modulo `256 ^ n`), least significant first. -/
def le_bytes : Nat → Nat → List Nat
  | 0, _ => []
  | n + 1, v => v % 256 :: le_bytes n (v / 256)

/-- Read of an `n`-byte integer at byte offset `off`: `*(uintN_t*)((char*)buf + off)`. -/
def load (buf : List Nat) (off n : Nat) : Option Nat :=
  if off + n ≤ buf.length then some (le_value ((buf.drop off).take n)) else none

/-- Write of an `n`-byte integer at byte offset `off`: `*(uintN_t*)((char*)buf + off) = v`. -/
def store (buf : List Nat) (off n v : Nat) : Option (List Nat) :=
  if off + n ≤ buf.length then
    some (buf.take off ++ le_bytes n v ++ buf.drop (off + n))
  else none

/-- The call `memcpy((char*)dst + doff, (char*)src + soff, n)`. -/
def memcpy (dst : List Nat) (doff : Nat) (src : List Nat) (soff n : Nat) :
    Option (List Nat) :=
  if soff + n ≤ src.length ∧ doff + n ≤ dst.length then
    some (dst.take doff ++ (src.drop soff).take n ++ dst.drop (doff + n))
  else none

/-- The block returned by `malloc(size)`: `size` bytes whose contents are whatever
the heap holds (`heap i` is the byte found at index `i`). -/
def malloc (heap : Nat → Nat) (size : Nat) : List Nat :=
  (List.range size).map fun i => heap i % 256

/-! ## Declarations that live in headers outside the source tree -/

/-- Values of the kernel constants and of the validation helper that
`echo.c` takes from `magenta/syscalls.h` and `struct.h`. -/
structure Host where
  /-- Status of a system call that succeeded. -/
  NO_ERROR : Int
  /-- Status of a system call that could not allocate. -/
  ERR_NO_MEMORY : Int
  /-- Signal bit: a message is pending. -/
  MX_SIGNAL_READABLE : Nat
  /-- The helper `mojo_validate_struct_header(data, size)`. -/
  mojo_validate_struct_header : List Nat → Nat → Bool

/-- Modelled from the spec: `message.h` is missing; the wire format gives
`flags` as "bit0: EXPECTS_RESPONSE", and the request of `echo_test`, which the
test expects to be served, carries the word 1 in that field. -/
def MOJO_MESSAGE_HEADER_FLAGS_EXPECTS_RESPONSE : Nat := 1

/-- Modelled from the spec: `message.h` is missing; the wire format gives
`flags` as "bit1: IS_RESPONSE". -/
def MOJO_MESSAGE_HEADER_FLAGS_IS_RESPONSE : Nat := 2

/-- Modelled from the spec: `message.h` is missing; the wire format puts
`num_bytes`, `version`, `name`, `flags` (32 bits each) and `request_id`
(64 bits) at offsets 0, 4, 8, 12 and 16, so
`sizeof(mojo_message_header_with_request_id_t)` is 24. -/
def sizeof_mojo_message_header_with_request_id_t : Nat := 24

/-! ## The system calls of one exchange -/

/-- What the kernel answers to the system calls of one `serve_echo_request`.
A data read that succeeds fills `in_msg_buf` with the pending message and
leaves its length in `in_msg_size` (the sizing read reported the same
length: nobody else reads from the handle). -/
structure Kernel where
  /-- Status of `_magenta_handle_wait_one`. -/
  wait_status : Int
  /-- The `satisfied_signals` it reports. -/
  satisfied_signals : Nat
  /-- Status of the sizing `_magenta_message_read` (null buffer). -/
  sizing_status : Int
  /-- Status of the data `_magenta_message_read`. -/
  read_status : Int
  /-- The pending message. -/
  message : List Nat
  /-- Contents of the heap block handed out by `malloc`. -/
  heap : Nat → Nat
  /-- Status of `_magenta_message_write`. -/
  write_status : Int

/-- A system call made on the handle. -/
inductive Syscall where
  | handle_wait_one
  | message_read_size
  | message_read
  | message_write (bytes : List Nat)
  deriving DecidableEq, Repr

/-- How a run of the body ends. -/
inductive Step (α : Type) where
  /-- The body ran to this point. -/
  | ok (a : α)
  /-- An `ASSERT_*` did not hold: the function returns `false`. -/
  | assert_failed
  /-- An access outside a buffer. -/
  | out_of_bounds
  deriving DecidableEq, Repr

/-- A memory access followed by the rest of the body. -/
def access {α β : Type} (o : Option α) (rest : α → Step β) : Step β :=
  match o with
  | some a => rest a
  | none => Step.out_of_bounds

/-- The macros `ASSERT_TRUE`, `ASSERT_EQ`, `ASSERT_NEQ` of `unittest.h`
followed by the rest of the body: when the condition fails the enclosing
function returns `false`. -/
def ASSERT (c : Prop) [Decidable c] {β : Type} (rest : Step β) : Step β :=
  if c then rest else Step.assert_failed

/-- The loop `for (i = 0; i < num_elems; ++i) printf("%c", ((char*)data)[i])`
with `data` at byte offset `base`: the characters printed. -/
def got_string (buf : List Nat) (base : Nat) : Nat → Option (List Nat)
  | 0 => some []
  | i + 1 =>
    match got_string buf base i with
    | none => none
    | some s =>
      match load buf (base + i) 1 with
      | none => none
      | some c => some (s ++ [c])

/-- Result of `serve_echo_request`: the value returned (`none` when an access
left a buffer) and the system calls made, in order. -/
structure Outcome where
  returned : Option Bool
  calls : List Syscall
  deriving DecidableEq, Repr

/-- The messages passed to `_magenta_message_write`. -/
def Outcome.written (o : Outcome) : List (List Nat) :=
  o.calls.filterMap fun c =>
    match c with
    | Syscall.message_write b => some b
    | _ => none

/-- The number of `_magenta_message_read` calls. -/
def Outcome.message_reads (o : Outcome) : Nat :=
  (o.calls.filter fun c =>
    match c with
    | Syscall.message_read_size => true
    | Syscall.message_read => true
    | _ => false).length

/-! ## `echo.c` -/

/-- The function `wait_for_readable` (echo.c, lines 27-41). -/
def wait_for_readable (h : Host) (k : Kernel) : Bool :=
  if k.wait_status ≠ h.NO_ERROR then false
  else if k.satisfied_signals &&& h.MX_SIGNAL_READABLE = 0 then false
  else true

/-- Lines 57-114 of `serve_echo_request`: parse `in_msg_buf` and form the
outgoing message in a fresh block of the same size. -/
def form_reply (h : Host) (in_msg_buf : List Nat) (heap : Nat → Nat) : Step (List Nat) :=
  let in_msg_size := in_msg_buf.length
  ASSERT (h.mojo_validate_struct_header in_msg_buf in_msg_size = true) <|
  -- in_struct_header->version
  access (load in_msg_buf 4 4) fun version =>
  ASSERT (version = 1) <|
  -- in_msg_header->message_header.name
  access (load in_msg_buf 8 4) fun name =>
  ASSERT (name = 0) <|
  -- in_msg_header->message_header.flags
  access (load in_msg_buf 12 4) fun flags =>
  ASSERT (flags = MOJO_MESSAGE_HEADER_FLAGS_EXPECTS_RESPONSE) <|
  access (load in_msg_buf 16 8) fun request_id =>
  -- in_payload = in_msg_header + 1u: one whole header further
  let in_payload := sizeof_mojo_message_header_with_request_id_t
  access (load in_msg_buf in_payload 4) fun in_string_header_num_bytes =>
  access (load in_msg_buf (in_payload + 4) 4) fun in_string_header_num_elems =>
  let in_string_data := in_payload + 8
  access (got_string in_msg_buf in_string_data in_string_header_num_elems) fun _ =>
  let out_msg_buf := malloc heap in_msg_size
  -- struct header
  access (store out_msg_buf 0 4 sizeof_mojo_message_header_with_request_id_t) fun out_msg_buf =>
  access (store out_msg_buf 4 4 1) fun out_msg_buf =>
  -- message header
  access (store out_msg_buf 8 4 0) fun out_msg_buf =>
  access (store out_msg_buf 12 4 MOJO_MESSAGE_HEADER_FLAGS_IS_RESPONSE) fun out_msg_buf =>
  access (store out_msg_buf 16 8 request_id) fun out_msg_buf =>
  -- out_string_header = (uint32_t*)out_msg_header + 1u: one 32-bit word further
  let out_string_header := 4
  access (store out_msg_buf out_string_header 4 in_string_header_num_bytes) fun out_msg_buf =>
  access (store out_msg_buf (out_string_header + 4) 4 in_string_header_num_elems)
    fun out_msg_buf =>
  if in_string_header_num_bytes ≠ 0 then
    let out_string_dest := out_string_header + 8
    access (memcpy out_msg_buf out_string_dest in_msg_buf in_string_data
      in_string_header_num_bytes) fun out_msg_buf =>
    Step.ok out_msg_buf
  else Step.ok out_msg_buf

/-- The function `serve_echo_request` (echo.c, lines 43-125). -/
def serve_echo_request (h : Host) (k : Kernel) : Outcome :=
  if wait_for_readable h k = false then
    ⟨some false, [Syscall.handle_wait_one]⟩
  else if k.sizing_status = h.ERR_NO_MEMORY then
    ⟨some false, [Syscall.handle_wait_one, Syscall.message_read_size]⟩
  else if k.read_status ≠ h.NO_ERROR then
    ⟨some false, [Syscall.handle_wait_one, Syscall.message_read_size, Syscall.message_read]⟩
  else
    match form_reply h k.message k.heap with
    | Step.assert_failed =>
      ⟨some false, [Syscall.handle_wait_one, Syscall.message_read_size, Syscall.message_read]⟩
    | Step.out_of_bounds =>
      ⟨none, [Syscall.handle_wait_one, Syscall.message_read_size, Syscall.message_read]⟩
    | Step.ok out_msg_buf =>
      ⟨some (decide (k.write_status = h.NO_ERROR)),
        [Syscall.handle_wait_one, Syscall.message_read_size, Syscall.message_read,
          Syscall.message_write out_msg_buf]⟩

/-! ## Concrete inputs -/

/-- A stand-in for the missing `mojo_validate_struct_header`, used only to
instantiate `Host` at concrete inputs: the struct header fits in the data and
the length it declares covers the header and stays within the data. -/
def sample_validate_struct_header (data : List Nat) (size : Nat) : Bool :=
  match load data 0 4 with
  | some num_bytes => decide (8 ≤ size ∧ 8 ≤ num_bytes ∧ num_bytes ≤ size)
  | none => false

/-- A host for the concrete inputs: `NO_ERROR` 0, `ERR_NO_MEMORY` -4,
`MX_SIGNAL_READABLE` bit 0. -/
def sample_host : Host where
  NO_ERROR := 0
  ERR_NO_MEMORY := -4
  MX_SIGNAL_READABLE := 1
  mojo_validate_struct_header := sample_validate_struct_header

/-- The bytes of a message given as 32-bit words. -/
def words (ws : List Nat) : List Nat :=
  ws.foldr (fun w rest => le_bytes 4 w ++ rest) []

/-- The array `buf` of `echo_test` (echo.c, lines 135-144). -/
def echo_test_buf : List Nat := words [24, 1, 0, 1, 0, 0, 4, 4, 0x42424143]

/-- A kernel that reports the handle readable, delivers `message`, and lets
every call succeed; the heap block holds the byte `fill` everywhere. -/
def delivering (message : List Nat) (fill : Nat) : Kernel where
  wait_status := 0
  satisfied_signals := 1
  sizing_status := 0
  read_status := 0
  message := message
  heap := fun _ => fill
  write_status := 0

/-- The request of `echo_test` with the string header announcing eight bytes
and eight characters, and a `request_id` of 7: 40 bytes. -/
def long_request : List Nat :=
  words [24, 1, 0, 1, 7, 0, 8, 8, 0x42424143, 0x44434241]

/-- The request of `echo_test` with a struct header that declares 32 bytes. -/
def request_declaring_32 : List Nat := words [32, 1, 0, 1, 0, 0, 4, 4, 0x42424143]

/-- The request of `echo_test` cut after its 24-byte header. -/
def header_only_request : List Nat := words [24, 1, 0, 1, 0, 0]

/-- The request of `echo_test` announcing eight characters in `str_num_elems`. -/
def request_8_elems : List Nat := words [24, 1, 0, 1, 0, 0, 4, 8, 0x42424143]

/-- The request of `echo_test` announcing eight bytes in `str_num_bytes`. -/
def request_8_bytes : List Nat := words [24, 1, 0, 1, 0, 0, 8, 4, 0x42424143]

/-- The request of `echo_test` with version 2. -/
def request_version_2 : List Nat := words [24, 2, 0, 1, 0, 0, 4, 4, 0x42424143]

/-- The request of `echo_test` with name 5. -/
def request_name_5 : List Nat := words [24, 1, 5, 1, 0, 0, 4, 4, 0x42424143]

/-- The request of `echo_test` with flags `EXPECTS_RESPONSE | IS_RESPONSE`. -/
def request_flags_3 : List Nat := words [24, 1, 0, 3, 0, 0, 4, 4, 0x42424143]

/-- A kernel whose wait reports only a signal other than readable (bit 2). -/
def peer_closed : Kernel where
  wait_status := 0
  satisfied_signals := 4
  sizing_status := 0
  read_status := 0
  message := []
  heap := fun _ => 0
  write_status := 0

/-- The conditions under which the spec expects a reply: the handle is
readable, the reads and the write succeed, the struct header validates, and
version, name and flags are 1, 0 and `EXPECTS_RESPONSE`. -/
def Servable (h : Host) (k : Kernel) : Prop :=
  wait_for_readable h k = true ∧ k.sizing_status ≠ h.ERR_NO_MEMORY ∧
  k.read_status = h.NO_ERROR ∧ k.write_status = h.NO_ERROR ∧
  h.mojo_validate_struct_header k.message k.message.length = true ∧
  load k.message 4 4 = some 1 ∧ load k.message 8 4 = some 0 ∧
  load k.message 12 4 = some MOJO_MESSAGE_HEADER_FLAGS_EXPECTS_RESPONSE

instance (h : Host) (k : Kernel) : Decidable (Servable h k) := by
  unfold Servable
  infer_instance

/-- The message written for the request of `echo_test` when the heap block
holds zeros. -/
def echo_test_reply : List Nat :=
  [24, 0, 0, 0, 4, 0, 0, 0, 4, 0, 0, 0, 67, 65, 66, 66, 0, 0, 0, 0, 0, 0, 0, 0,
    0, 0, 0, 0, 0, 0, 0, 0, 0, 0, 0, 0]

/-! ## Calls in a row -/

/-- Modelled from the spec: the message pipe belongs to the kernel and is not
part of the source tree; section 4.1 of the spec gives a channel a read that
"returns the next complete pending message" and a write that "transmits a
complete frame atomically". Seen from the end `serve_echo_request` holds:
`inbound` are the messages written at the peer end and not read yet, oldest
first, and `outbound` the messages written at this end, oldest first. -/
structure Channel where
  inbound : List (List Nat)
  outbound : List (List Nat)
  deriving DecidableEq, Repr

/-- Modelled from the spec: what the kernel's message read and write do to the
channel (section 4.1) around one call of `serve_echo_request`. The statuses
and the heap block are those of `k`; the message that the data read delivers
is the oldest one pending on the channel. The result is the outcome of the
call and the channel after it: a data read that is made and succeeds takes the
oldest message off `inbound`, a write that succeeds puts its message at the
end of `outbound`. With nothing pending a wait that fails or reports no
readable signal ends the call at once; a wait reporting a readable signal is
not an answer the kernel gives then, and the result is `none`. -/
def serve_on (h : Host) (k : Kernel) (c : Channel) : Option (Outcome × Channel) :=
  match c.inbound with
  | [] => if wait_for_readable h k = true then none else some (serve_echo_request h k, c)
  | message :: rest =>
    some (serve_echo_request h { k with message := message },
      { inbound :=
          if Syscall.message_read ∈ (serve_echo_request h { k with message := message }).calls
              ∧ k.read_status = h.NO_ERROR then rest
          else message :: rest,
        outbound :=
          if k.write_status = h.NO_ERROR then
            c.outbound ++ (serve_echo_request h { k with message := message }).written
          else c.outbound })

/-- The loop of `echo_test` (echo.c, lines 133-149) with one round for each
element of the list in place of three rounds with `buf`: a round writes its
request, `k.message`, at the peer end (line 145, which the test requires to
succeed) and calls `serve_echo_request` (line 148) under the answers `k`; the
rounds go on while the calls return `true`. The result is the value of the
last call made (`some true` when no round was to be made) and the channel at
the end. -/
def echo_test_loop (h : Host) : List Kernel → Channel → Option (Option Bool × Channel)
  | [], c => some (some true, c)
  | k :: ks, c =>
    match serve_on h k { c with inbound := c.inbound ++ [k.message] } with
    | none => none
    | some (o, c1) =>
      if o.returned = some true then echo_test_loop h ks c1 else some (o.returned, c1)

/-- A kernel like `delivering message` whose heap block still holds the bytes
`previous`, left there by an earlier owner of the block, and zeros behind them. -/
def recycling (message previous : List Nat) : Kernel where
  wait_status := 0
  satisfied_signals := 1
  sizing_status := 0
  read_status := 0
  message := message
  heap := fun i => previous.getD i 0
  write_status := 0

/-- The request of `echo_test` with `request_id` 9 and the payload Z, Z, Z, Z. -/
def request_zzzz : List Nat := words [24, 1, 0, 1, 9, 0, 4, 4, 0x5A5A5A5A]

/-- The request of `echo_test` with three payload bytes and one byte of padding. -/
def request_3_bytes : List Nat := words [24, 1, 0, 1, 0, 0, 3, 3, 0x00424143]

/-- The message `echo_test_reply` with its flags word set to `EXPECTS_RESPONSE`. -/
def echo_test_reply_as_request : List Nat := words [24, 4, 4, 1, 0, 0, 0, 0, 0]

/-- A request with `request_id` 0, no characters to print, and `n` payload bytes
of value 1. -/
def request_of_ones (n : Nat) : List Nat :=
  words [24, 1, 0, 1, 0, 0, n, 0] ++ List.replicate n 1

end Echo

/-! ## `mtx_trylock.c` -/

namespace Musl

/-- Values that `mtx_trylock.c` takes from `threads.h` and `zircon/errors.h`. -/
structure Threads where
  thrd_success : Int
  thrd_busy : Int
  thrd_error : Int
  ZX_ERR_BAD_STATE : Int

/-- The function `mtx_trylock` (mtx_trylock.c, lines 4-14) applied to the
status that `sync_mtx_trylock` returns: the `switch` with the labels `case 0`,
`case ZX_ERR_BAD_STATE` and `default`. -/
def mtx_trylock (c : Threads) (status : Int) : Int :=
  if status = 0 then c.thrd_success
  else if status = c.ZX_ERR_BAD_STATE then c.thrd_busy
  else c.thrd_error

/-- Sample values: the enumerators 0, 1, 2 and the status -20. -/
def sample_threads : Threads where
  thrd_success := 0
  thrd_busy := 1
  thrd_error := 2
  ZX_ERR_BAD_STATE := -20

end Musl

/-! ## Lemmas on buffers and on the control flow -/

namespace Echo

theorem access_eq_ok {α β : Type} (o : Option α) (f : α → Step β) (b : β) :
    access o f = Step.ok b ↔ ∃ a, o = some a ∧ f a = Step.ok b := by
  cases o <;> simp [access]

theorem ASSERT_eq_ok (c : Prop) [Decidable c] {β : Type} (r : Step β) (b : β) :
    ASSERT c r = Step.ok b ↔ c ∧ r = Step.ok b := by
  unfold ASSERT
  split_ifs <;> simp [*]

theorem malloc_length (heap : Nat → Nat) (size : Nat) : (malloc heap size).length = size := by
  simp [malloc]

theorem le_bytes_length (n v : Nat) : (le_bytes n v).length = n := by
  induction n generalizing v with
  | zero => rfl
  | succ n ih => simp [le_bytes, ih]

theorem store_length {buf out : List Nat} {off n v : Nat}
    (hs : store buf off n v = some out) : out.length = buf.length := by
  unfold store at hs
  split_ifs at hs with hb
  cases hs
  simp [le_bytes_length]
  omega

theorem memcpy_length {dst src out : List Nat} {doff soff n : Nat}
    (hs : memcpy dst doff src soff n = some out) : out.length = dst.length := by
  unfold memcpy at hs
  split_ifs at hs with hb
  cases hs
  simp
  omega

/-- A store leaves the bytes below its offset as they were. -/
theorem store_take {buf out : List Nat} {off n v k : Nat}
    (hs : store buf off n v = some out) (hk : k ≤ off) : out.take k = buf.take k := by
  unfold store at hs
  split_ifs at hs with hb
  cases hs
  rw [List.append_assoc, List.take_append_of_le_length (by simp; omega), List.take_take]
  congr 1
  omega

/-- A copy leaves the bytes below its destination as they were. -/
theorem memcpy_take {dst src out : List Nat} {doff soff n k : Nat}
    (hs : memcpy dst doff src soff n = some out) (hk : k ≤ doff) :
    out.take k = dst.take k := by
  unfold memcpy at hs
  split_ifs at hs with hb
  cases hs
  rw [List.append_assoc, List.take_append_of_le_length (by simp; omega), List.take_take]
  congr 1
  omega

/-- A load at offset 0 reads the first `n` bytes. -/
theorem load_zero (buf : List Nat) (n : Nat) (hn : n ≤ buf.length) :
    load buf 0 n = some (le_value (buf.take n)) := by
  simp [load, hn]

/-- A load that succeeds shows the buffer reaches the end of the field. -/
theorem load_bound {buf : List Nat} {off n v : Nat} (hl : load buf off n = some v) :
    off + n ≤ buf.length := by
  unfold load at hl
  split_ifs at hl with hb
  exact hb

theorem load_of_bound (buf : List Nat) (off n : Nat) (hb : off + n ≤ buf.length) :
    ∃ v, load buf off n = some v := by
  simp [load, hb]

theorem store_of_bound (buf : List Nat) (off n v : Nat) (hb : off + n ≤ buf.length) :
    ∃ out, store buf off n v = some out := by
  simp [store, hb]

/-- The printing loop reads inside the buffer exactly when the characters it
is asked for are all there. -/
theorem got_string_of_bound (buf : List Nat) (base n : Nat) (hb : base + n ≤ buf.length) :
    ∃ s, got_string buf base n = some s := by
  induction n with
  | zero => exact ⟨[], rfl⟩
  | succ i ih =>
    obtain ⟨s, hs⟩ := ih (by omega)
    obtain ⟨c, hc⟩ := load_of_bound buf (base + i) 1 (by omega)
    exact ⟨s ++ [c], by simp [got_string, hs, hc]⟩

/-- What a run of the body that reaches the end has read and written. -/
theorem form_reply_ok {h : Host} {m : List Nat} {heap : Nat → Nat} {out : List Nat}
    (hok : form_reply h m heap = Step.ok out) :
    h.mojo_validate_struct_header m m.length = true ∧
    load m 4 4 = some 1 ∧ load m 8 4 = some 0 ∧
    load m 12 4 = some MOJO_MESSAGE_HEADER_FLAGS_EXPECTS_RESPONSE ∧
    ∃ request_id num_bytes num_elems s o1 o2 o3 o4 o5 o6 o7,
      load m 16 8 = some request_id ∧ load m 24 4 = some num_bytes ∧
      load m 28 4 = some num_elems ∧ got_string m 32 num_elems = some s ∧
      store (malloc heap m.length) 0 4 24 = some o1 ∧ store o1 4 4 1 = some o2 ∧
      store o2 8 4 0 = some o3 ∧
      store o3 12 4 MOJO_MESSAGE_HEADER_FLAGS_IS_RESPONSE = some o4 ∧
      store o4 16 8 request_id = some o5 ∧ store o5 4 4 num_bytes = some o6 ∧
      store o6 8 4 num_elems = some o7 ∧
      (if num_bytes ≠ 0 then memcpy o7 12 m 32 num_bytes else some o7) = some out := by
  simp only [form_reply, access_eq_ok, ASSERT_eq_ok,
    sizeof_mojo_message_header_with_request_id_t] at hok
  obtain ⟨hv, version, h4, rfl, name, h8, rfl, flags, h12, rfl, rid, h16, nb, h24, ne, h28,
    s, hs, o1, ho1, o2, ho2, o3, ho3, o4, ho4, o5, ho5, o6, ho6, o7, ho7, hout⟩ := hok
  refine ⟨hv, h4, h8, h12, rid, nb, ne, s, o1, o2, o3, o4, o5, o6, o7, h16, h24, h28, hs,
    ho1, ho2, ho3, ho4, ho5, ho6, ho7, ?_⟩
  split_ifs at hout with hnb
  · rw [access_eq_ok] at hout
    obtain ⟨o, ho, hoo⟩ := hout
    cases hoo
    simpa [hnb] using ho
  · cases hout
    simp [hnb]

/-- A call that hands a message to the channel write ran the body to its end. -/
theorem written_singleton {h : Host} {k : Kernel} {out : List Nat}
    (hw : (serve_echo_request h k).written = [out]) :
    form_reply h k.message k.heap = Step.ok out := by
  unfold serve_echo_request at hw
  split_ifs at hw
  · simp [Outcome.written] at hw
  · simp [Outcome.written] at hw
  · simp [Outcome.written] at hw
  · split at hw
    · simp [Outcome.written] at hw
    · simp [Outcome.written] at hw
    · rename_i o ho
      simp [Outcome.written] at hw
      rw [ho, hw]

end Echo

namespace Echo

/-- A failed version check makes the body return `false`. -/
theorem form_reply_version {h : Host} {m : List Nat} {heap : Nat → Nat} {version : Nat}
    (hl : load m 4 4 = some version) (hv : version ≠ 1) :
    form_reply h m heap = Step.assert_failed := by
  simp [form_reply, ASSERT, access, hl, hv]

/-- A failed name check makes the body return `false`. -/
theorem form_reply_name {h : Host} {m : List Nat} {heap : Nat → Nat} {name : Nat}
    (hl : load m 8 4 = some name) (hn : name ≠ 0) :
    form_reply h m heap = Step.assert_failed := by
  obtain ⟨version, h4⟩ := load_of_bound m 4 4 (by have := load_bound hl; omega)
  simp only [form_reply, ASSERT, access, hl, h4]
  split_ifs <;> rfl

/-- A failed flags check makes the body return `false`. -/
theorem form_reply_flags {h : Host} {m : List Nat} {heap : Nat → Nat} {flags : Nat}
    (hl : load m 12 4 = some flags)
    (hf : flags ≠ MOJO_MESSAGE_HEADER_FLAGS_EXPECTS_RESPONSE) :
    form_reply h m heap = Step.assert_failed := by
  obtain ⟨version, h4⟩ := load_of_bound m 4 4 (by have := load_bound hl; omega)
  obtain ⟨name, h8⟩ := load_of_bound m 8 4 (by have := load_bound hl; omega)
  simp only [form_reply, ASSERT, access, hl, h4, h8]
  split_ifs <;> rfl

/-- A call whose body returns `false` returns `false` and writes nothing. -/
theorem serve_of_assert_failed {h : Host} {k : Kernel}
    (hf : form_reply h k.message k.heap = Step.assert_failed) :
    (serve_echo_request h k).returned = some false ∧
      (serve_echo_request h k).written = [] := by
  unfold serve_echo_request
  rw [hf]
  split_ifs <;> simp [Outcome.written]

/-- The reply has the length of the request. -/
theorem form_reply_length {h : Host} {m : List Nat} {heap : Nat → Nat} {out : List Nat}
    (hok : form_reply h m heap = Step.ok out) : out.length = m.length := by
  obtain ⟨-, -, -, -, rid, nb, ne, s, o1, o2, o3, o4, o5, o6, o7, -, -, -, -,
    h1, h2, h3, h4, h5, h6, h7, hout⟩ := form_reply_ok hok
  have l7 : o7.length = m.length := by
    rw [store_length h7, store_length h6, store_length h5, store_length h4, store_length h3,
      store_length h2, store_length h1, malloc_length]
  split_ifs at hout with hnb
  · rw [memcpy_length hout, l7]
  · cases hout
    exact l7

/-- The first word of the reply is the size of the header. -/
theorem form_reply_num_bytes {h : Host} {m : List Nat} {heap : Nat → Nat} {out : List Nat}
    (hok : form_reply h m heap = Step.ok out) :
    load out 0 4 = some sizeof_mojo_message_header_with_request_id_t := by
  have hlen := form_reply_length hok
  obtain ⟨-, -, -, -, rid, nb, ne, s, o1, o2, o3, o4, o5, o6, o7, -, -, h28, -,
    h1, h2, h3, h4, h5, h6, h7, hout⟩ := form_reply_ok hok
  have hb := load_bound h28
  have t7 : o7.take 4 = o1.take 4 := by
    rw [store_take h7 (by omega), store_take h6 (by omega), store_take h5 (by omega),
      store_take h4 (by omega), store_take h3 (by omega), store_take h2 (by omega)]
  have t1 : o1.take 4 = le_bytes 4 24 := by
    unfold store at h1
    split_ifs at h1 with hb1
    cases h1
    simp [le_bytes]
  have tout : out.take 4 = le_bytes 4 24 := by
    split_ifs at hout with hnb
    · rw [memcpy_take hout (by omega), t7, t1]
    · cases hout
      rw [t7, t1]
  rw [load_zero out 4 (by omega), tout]
  rfl

/-- A message that holds the characters and bytes its string header announces
runs the body to its end. -/
theorem form_reply_of_bounds {h : Host} {m : List Nat} (heap : Nat → Nat)
    {num_bytes num_elems : Nat}
    (hv : h.mojo_validate_struct_header m m.length = true)
    (h4 : load m 4 4 = some 1) (h8 : load m 8 4 = some 0)
    (h12 : load m 12 4 = some MOJO_MESSAGE_HEADER_FLAGS_EXPECTS_RESPONSE)
    (h24 : load m 24 4 = some num_bytes) (h28 : load m 28 4 = some num_elems)
    (hnb : 32 + num_bytes ≤ m.length) (hne : 32 + num_elems ≤ m.length) :
    ∃ out, form_reply h m heap = Step.ok out := by
  have hb := load_bound h28
  obtain ⟨rid, h16⟩ := load_of_bound m 16 8 (by omega)
  obtain ⟨s, hs⟩ := got_string_of_bound m 32 num_elems hne
  obtain ⟨o1, s1⟩ := store_of_bound (malloc heap m.length) 0 4 24
    (by rw [malloc_length]; omega)
  have l1 := store_length s1
  rw [malloc_length] at l1
  obtain ⟨o2, s2⟩ := store_of_bound o1 4 4 1 (by omega)
  have l2 := store_length s2
  obtain ⟨o3, s3⟩ := store_of_bound o2 8 4 0 (by omega)
  have l3 := store_length s3
  obtain ⟨o4, s4⟩ := store_of_bound o3 12 4 MOJO_MESSAGE_HEADER_FLAGS_IS_RESPONSE (by omega)
  have l4 := store_length s4
  obtain ⟨o5, s5⟩ := store_of_bound o4 16 8 rid (by omega)
  have l5 := store_length s5
  obtain ⟨o6, s6⟩ := store_of_bound o5 4 4 num_bytes (by omega)
  have l6 := store_length s6
  obtain ⟨o7, s7⟩ := store_of_bound o6 8 4 num_elems (by omega)
  have l7 := store_length s7
  by_cases hz : num_bytes = 0
  · subst hz
    refine ⟨o7, ?_⟩
    simp [form_reply, ASSERT, access, sizeof_mojo_message_header_with_request_id_t,
      hv, h4, h8, h12, h16, h24, h28, hs, s1, s2, s3, s4, s5, s6, s7]
  · have hm : ∃ out, memcpy o7 12 m 32 num_bytes = some out := by
      simp only [memcpy]
      rw [if_pos ⟨by omega, by omega⟩]
      exact ⟨_, rfl⟩
    obtain ⟨out, hout⟩ := hm
    refine ⟨out, ?_⟩
    simp [form_reply, ASSERT, access, sizeof_mojo_message_header_with_request_id_t,
      hv, h4, h8, h12, h16, h24, h28, hs, s1, s2, s3, s4, s5, s6, s7, hz, hout]

end Echo


namespace Echo

/-- Storing into a buffer split at the offset replaces the head of the second part. -/
theorem store_at (p s : List Nat) (off n v : Nat) (hoff : p.length = off)
    (hn : n ≤ s.length) :
    store (p ++ s) off n v = some (p ++ (le_bytes n v ++ s.drop n)) := by
  subst hoff
  unfold store
  rw [if_pos (by simp; omega), List.take_left, List.drop_append, List.append_assoc]

/-- Reading back the bytes of a value gives the value modulo the width. -/
theorem le_value_le_bytes (n v : Nat) : le_value (le_bytes n v) = v % 256 ^ n := by
  induction n generalizing v with
  | zero => simp [le_bytes, le_value, Nat.mod_one]
  | succ n ih =>
    simp only [le_bytes, le_value, ih, Nat.mod_mod]
    rw [pow_succ, Nat.mul_comm (256 ^ n) 256, Nat.mod_mul]

/-- A run of bytes is worth less than the width allows. -/
theorem le_value_lt (bs : List Nat) : le_value bs < 256 ^ bs.length := by
  induction bs with
  | nil => simp [le_value]
  | cons b bs ih =>
    simp only [le_value, List.length_cons, pow_succ]
    have := Nat.mod_lt b (show 0 < 256 by decide)
    omega

/-- A loaded value fits the width of the field. -/
theorem load_lt {buf : List Nat} {off n v : Nat} (hl : load buf off n = some v) :
    v < 256 ^ n := by
  unfold load at hl
  split_ifs at hl with hb
  cases hl
  have h := le_value_lt ((buf.drop off).take n)
  have hlen : ((buf.drop off).take n).length = n := by
    simp
    omega
  rwa [hlen] at h

/-- The bytes of a reply: the three words at offsets 0, 4 and 8, the payload
from offset 12, what is left of the flags and of the request id behind it,
and the bytes of the heap block from offset 24 that the payload did not
reach. -/
theorem form_reply_bytes {h : Host} {m : List Nat} {heap : Nat → Nat} {out : List Nat}
    (hok : form_reply h m heap = Step.ok out) :
    ∃ request_id num_bytes num_elems,
      load m 16 8 = some request_id ∧ load m 24 4 = some num_bytes ∧
      load m 28 4 = some num_elems ∧ 32 + num_bytes ≤ m.length ∧
      out = (le_bytes 4 24 ++ (le_bytes 4 num_bytes ++ le_bytes 4 num_elems)) ++
        ((m.drop 32).take num_bytes ++
          ((le_bytes 4 MOJO_MESSAGE_HEADER_FLAGS_IS_RESPONSE ++ le_bytes 8 request_id).drop
              num_bytes ++
            ((malloc heap m.length).drop 24).drop (num_bytes - 12))) := by
  obtain ⟨-, -, -, -, rid, nb, ne, s, o1, o2, o3, o4, o5, o6, o7, h16, h24, h28, -,
    h1, h2, h3, h4, h5, h6, h7, hout⟩ := form_reply_ok hok
  have hL : 32 ≤ (malloc heap m.length).length := by
    rw [malloc_length]
    exact load_bound h28
  generalize malloc heap m.length = g at *
  have e1 : store g 0 4 24 = some (le_bytes 4 24 ++ g.drop 4) := by
    simpa using store_at [] g 0 4 24 rfl (by omega)
  rw [e1] at h1
  cases h1
  have e2 : store (le_bytes 4 24 ++ g.drop 4) 4 4 1
      = some (le_bytes 4 24 ++ (le_bytes 4 1 ++ g.drop 8)) := by
    simpa [List.drop_drop] using
      store_at (le_bytes 4 24) (g.drop 4) 4 4 1
        (le_bytes_length 4 24) (by simp; omega)
  rw [e2] at h2
  cases h2
  have e3 : store (le_bytes 4 24 ++ (le_bytes 4 1 ++ g.drop 8)) 8 4 0
      = some (le_bytes 4 24 ++ (le_bytes 4 1 ++ (le_bytes 4 0 ++ g.drop 12))) := by
    simpa [List.drop_drop, List.append_assoc] using
      store_at (le_bytes 4 24 ++ le_bytes 4 1) (g.drop 8) 8 4 0
        (by simp [le_bytes_length]) (by simp; omega)
  rw [e3] at h3
  cases h3
  have e4 : store (le_bytes 4 24 ++ (le_bytes 4 1 ++ (le_bytes 4 0 ++ g.drop 12))) 12 4
        MOJO_MESSAGE_HEADER_FLAGS_IS_RESPONSE
      = some (le_bytes 4 24 ++ (le_bytes 4 1 ++ (le_bytes 4 0 ++
          (le_bytes 4 MOJO_MESSAGE_HEADER_FLAGS_IS_RESPONSE ++ g.drop 16)))) := by
    simpa [List.drop_drop, List.append_assoc] using
      store_at (le_bytes 4 24 ++ (le_bytes 4 1 ++ le_bytes 4 0)) (g.drop 12) 12 4
        MOJO_MESSAGE_HEADER_FLAGS_IS_RESPONSE (by simp [le_bytes_length]) (by simp; omega)
  rw [e4] at h4
  cases h4
  have e5 : store (le_bytes 4 24 ++ (le_bytes 4 1 ++ (le_bytes 4 0 ++
        (le_bytes 4 MOJO_MESSAGE_HEADER_FLAGS_IS_RESPONSE ++ g.drop 16)))) 16 8 rid
      = some (le_bytes 4 24 ++ (le_bytes 4 1 ++ (le_bytes 4 0 ++
          (le_bytes 4 MOJO_MESSAGE_HEADER_FLAGS_IS_RESPONSE ++
            (le_bytes 8 rid ++ g.drop 24))))) := by
    simpa [List.drop_drop, List.append_assoc] using
      store_at (le_bytes 4 24 ++ (le_bytes 4 1 ++ (le_bytes 4 0 ++
          le_bytes 4 MOJO_MESSAGE_HEADER_FLAGS_IS_RESPONSE))) (g.drop 16) 16 8 rid
        (by simp [le_bytes_length]) (by simp; omega)
  rw [e5] at h5
  cases h5
  have e6 := store_at (le_bytes 4 24) (le_bytes 4 1 ++ (le_bytes 4 0 ++
      (le_bytes 4 MOJO_MESSAGE_HEADER_FLAGS_IS_RESPONSE ++ (le_bytes 8 rid ++ g.drop 24))))
    4 4 nb (le_bytes_length 4 24) (by simp [le_bytes_length])
  rw [List.drop_left' (le_bytes_length 4 1)] at e6
  rw [e6] at h6
  cases h6
  have e7 := store_at (le_bytes 4 24 ++ le_bytes 4 nb) (le_bytes 4 0 ++
      (le_bytes 4 MOJO_MESSAGE_HEADER_FLAGS_IS_RESPONSE ++ (le_bytes 8 rid ++ g.drop 24)))
    8 4 ne (by simp [le_bytes_length]) (by simp [le_bytes_length])
  rw [List.drop_left' (le_bytes_length 4 0), List.append_assoc] at e7
  rw [e7] at h7
  have ho7 : o7 = (le_bytes 4 24 ++ (le_bytes 4 nb ++ le_bytes 4 ne)) ++
      ((le_bytes 4 MOJO_MESSAGE_HEADER_FLAGS_IS_RESPONSE ++ le_bytes 8 rid) ++ g.drop 24) := by
    rw [← Option.some.inj h7]
    simp [List.append_assoc]
  clear h7 e1 e2 e3 e4 e5 e6 e7
  subst ho7
  refine ⟨rid, nb, ne, h16, h24, h28, ?_, ?_⟩
  · split_ifs at hout with hnb
    · unfold memcpy at hout
      split_ifs at hout with hb
      omega
    · have := load_bound h28
      omega
  · split_ifs at hout with hnb
    · unfold memcpy at hout
      split_ifs at hout with hb
      cases hout
      have hh : (le_bytes 4 24 ++ (le_bytes 4 nb ++ le_bytes 4 ne)).length = 12 := by
        simp [le_bytes_length]
      rw [List.take_left' hh,
        show 12 + nb = (le_bytes 4 24 ++ (le_bytes 4 nb ++ le_bytes 4 ne)).length + nb from by
          rw [hh],
        List.drop_append, List.drop_append_eq_append_drop]
      simp [le_bytes_length, List.append_assoc]
    · cases hout
      have hz : nb = 0 := by omega
      subst hz
      simp [List.append_assoc]

end Echo

namespace Echo

/-- A field that sits between two parts of a buffer is loaded whole. -/
theorem load_at {buf p f s : List Nat} {off n : Nat} (hbuf : buf = p ++ (f ++ s))
    (hoff : p.length = off) (hn : f.length = n) : load buf off n = some (le_value f) := by
  subst hbuf hoff hn
  unfold load
  rw [if_pos (by simp), List.drop_left, List.take_left]

/-- The heap block from offset 24 on is what the heap holds there. -/
theorem malloc_drop_congr {heap heap1 : Nat → Nat} (size : Nat)
    (hh : ∀ j, 24 ≤ j → heap1 j % 256 = heap j % 256) :
    (malloc heap1 size).drop 24 = (malloc heap size).drop 24 := by
  apply List.ext_getElem
  · simp [malloc]
  · intro n h1 h2
    simp only [malloc, List.getElem_drop, List.getElem_map, List.getElem_range]
    apply hh
    omega

/-- Two runs of the body on the same message: the replies have the same
length and the same first 24 bytes, and are equal when the heap blocks agree
from offset 24 on. -/
theorem form_reply_heap_congr {h : Host} {m : List Nat} {heap heap1 : Nat → Nat}
    {out out1 : List Nat} (hok : form_reply h m heap = Step.ok out)
    (hok1 : form_reply h m heap1 = Step.ok out1) :
    out1.length = out.length ∧ out1.take 24 = out.take 24 ∧
      ((∀ j, 24 ≤ j → heap1 j % 256 = heap j % 256) → out1 = out) := by
  have hl := form_reply_length hok
  have hl1 := form_reply_length hok1
  obtain ⟨rid, nb, ne, h16, h24, h28, hb, ho⟩ := form_reply_bytes hok
  obtain ⟨rid1, nb1, ne1, g16, g24, g28, -, ho1⟩ := form_reply_bytes hok1
  rw [h16] at g16
  rw [h24] at g24
  rw [h28] at g28
  cases g16
  cases g24
  cases g28
  refine ⟨by rw [hl, hl1], ?_, ?_⟩
  · have hp : 24 ≤ ((le_bytes 4 24 ++ (le_bytes 4 nb ++ le_bytes 4 ne)) ++
        ((m.drop 32).take nb ++
          (le_bytes 4 MOJO_MESSAGE_HEADER_FLAGS_IS_RESPONSE ++ le_bytes 8 rid).drop nb)).length := by
      simp [le_bytes_length]
      omega
    have e : ∀ t : List Nat,
        (le_bytes 4 24 ++ (le_bytes 4 nb ++ le_bytes 4 ne)) ++ ((m.drop 32).take nb ++
          ((le_bytes 4 MOJO_MESSAGE_HEADER_FLAGS_IS_RESPONSE ++ le_bytes 8 rid).drop nb ++ t))
        = ((le_bytes 4 24 ++ (le_bytes 4 nb ++ le_bytes 4 ne)) ++ ((m.drop 32).take nb ++
          (le_bytes 4 MOJO_MESSAGE_HEADER_FLAGS_IS_RESPONSE ++ le_bytes 8 rid).drop nb)) ++ t := by
      intro t
      simp only [List.append_assoc]
    rw [ho, ho1, e, e, List.take_append_of_le_length hp, List.take_append_of_le_length hp]
  · intro hh
    rw [ho, ho1, malloc_drop_congr m.length hh]

/-- A call that returns `true` has passed exactly one message to the channel write. -/
theorem written_of_returned_true {h : Host} {k : Kernel}
    (hr : (serve_echo_request h k).returned = some true) :
    ∃ out, (serve_echo_request h k).written = [out] := by
  unfold serve_echo_request at hr ⊢
  split_ifs at hr ⊢ <;> try (simp at hr)
  split at hr <;> simp at hr
  rename_i o ho
  exact ⟨o, by simp [Outcome.written]⟩

/-- The body rejects a message that fails the validation. -/
theorem form_reply_validate {h : Host} {m : List Nat} {heap : Nat → Nat}
    (hv : ¬ h.mojo_validate_struct_header m m.length = true) :
    form_reply h m heap = Step.assert_failed := by
  simp [form_reply, ASSERT, hv]

/-- A message that holds the characters and bytes its string header announces
keeps every access of the body inside the buffers. -/
theorem form_reply_in_bounds (h : Host) (m : List Nat) (heap : Nat → Nat)
    {num_bytes num_elems : Nat}
    (h24 : load m 24 4 = some num_bytes) (h28 : load m 28 4 = some num_elems)
    (hnb : 32 + num_bytes ≤ m.length) (hne : 32 + num_elems ≤ m.length) :
    form_reply h m heap ≠ Step.out_of_bounds := by
  have hb := load_bound h28
  by_cases hv : h.mojo_validate_struct_header m m.length = true
  swap
  · rw [form_reply_validate hv]
    simp
  obtain ⟨version, h4⟩ := load_of_bound m 4 4 (by omega)
  by_cases hver : version = 1
  swap
  · rw [form_reply_version h4 hver]
    simp
  obtain ⟨name, h8⟩ := load_of_bound m 8 4 (by omega)
  by_cases hname : name = 0
  swap
  · rw [form_reply_name h8 hname]
    simp
  obtain ⟨flags, h12⟩ := load_of_bound m 12 4 (by omega)
  by_cases hflags : flags = MOJO_MESSAGE_HEADER_FLAGS_EXPECTS_RESPONSE
  swap
  · rw [form_reply_flags h12 hflags]
    simp
  subst hver hname hflags
  obtain ⟨out, hout⟩ := form_reply_of_bounds heap hv h4 h8 h12 h24 h28 hnb hne
  rw [hout]
  simp

/-- A call that returns `true` has made the wait, both reads and one write,
and its data read and its write succeeded. -/
theorem calls_of_returned_true {h : Host} {k : Kernel}
    (hr : (serve_echo_request h k).returned = some true) :
    ∃ out, (serve_echo_request h k).calls =
        [Syscall.handle_wait_one, Syscall.message_read_size, Syscall.message_read,
          Syscall.message_write out] ∧
      k.read_status = h.NO_ERROR ∧ k.write_status = h.NO_ERROR := by
  unfold serve_echo_request at hr ⊢
  split_ifs at hr ⊢ with h1 h2 h3 <;> try (simp at hr)
  split at hr <;> simp at hr
  rename_i o ho
  exact ⟨o, rfl, not_not.mp h3, hr⟩

/-- A round of the loop on a channel with nothing pending, when the call
returns `true`: the request is taken off the channel and one reply, the one
the call writes, is put at the end of the outbound messages. -/
theorem serve_on_accepted {h : Host} {k : Kernel} (pre : List (List Nat))
    (hr : (serve_echo_request h k).returned = some true) :
    ∃ out, (serve_echo_request h k).written = [out] ∧
      serve_on h k { inbound := [k.message], outbound := pre }
        = some (serve_echo_request h k, { inbound := [], outbound := pre ++ [out] }) := by
  obtain ⟨out, hcalls, hread, hwrite⟩ := calls_of_returned_true hr
  have hw : (serve_echo_request h k).written = [out] := by
    simp [Outcome.written, hcalls]
  refine ⟨out, hw, ?_⟩
  have e : serve_on h k { inbound := [k.message], outbound := pre }
      = some (serve_echo_request h k,
          { inbound :=
              if Syscall.message_read ∈ (serve_echo_request h k).calls
                  ∧ k.read_status = h.NO_ERROR then []
              else [k.message],
            outbound :=
              if k.write_status = h.NO_ERROR then pre ++ (serve_echo_request h k).written
              else pre }) := rfl
  rw [e, if_pos ⟨by rw [hcalls]; simp, hread⟩, if_pos hwrite, hw]

/-- The rounds of the loop while each call returns `true`, started with
nothing pending: every request is taken off the channel, as many replies are
put on it as rounds are made, and the reply at each position is the one the
call of that round writes. -/
theorem echo_test_loop_written (h : Host) (ks : List Kernel) (pre : List (List Nat))
    (hacc : ∀ k ∈ ks, (serve_echo_request h k).returned = some true) :
    ∃ replies, echo_test_loop h ks { inbound := [], outbound := pre }
        = some (some true, { inbound := [], outbound := pre ++ replies }) ∧
      replies.length = ks.length ∧
      ∀ (i : Nat) (k : Kernel), ks[i]? = some k →
        ∃ out, replies[i]? = some out ∧ (serve_echo_request h k).written = [out] := by
  induction ks generalizing pre with
  | nil => exact ⟨[], by simp [echo_test_loop], rfl, by simp⟩
  | cons k ks ih =>
    have hk := hacc k (List.mem_cons_self k ks)
    obtain ⟨out, hout, hon⟩ := serve_on_accepted pre hk
    obtain ⟨replies, hrun, hlen, hat⟩ :=
      ih (pre ++ [out]) fun k1 hk1 => hacc k1 (List.mem_cons_of_mem k hk1)
    refine ⟨out :: replies, ?_, by simp [hlen], ?_⟩
    · simp only [echo_test_loop, List.nil_append, hon, hk, if_true, hrun]
      simp
    · intro i k1 hi
      cases i with
      | zero =>
        simp at hi
        subst hi
        refine ⟨out, ?_, hout⟩
        simp
      | succ i =>
        simp at hi
        obtain ⟨o, ho, hw⟩ := hat i k1 hi
        refine ⟨o, ?_, hw⟩
        simpa using ho

end Echo

namespace Echo

/-- A call whose system calls succeed up to the read writes what the body forms. -/
theorem written_of_form_reply {h : Host} {k : Kernel} {out : List Nat}
    (hwait : wait_for_readable h k = true) (hsize : k.sizing_status ≠ h.ERR_NO_MEMORY)
    (hread : k.read_status = h.NO_ERROR)
    (hok : form_reply h k.message k.heap = Step.ok out) :
    (serve_echo_request h k).written = [out] := by
  unfold serve_echo_request
  rw [hok]
  simp [hwait, hsize, hread, Outcome.written]

/-- The lowest byte of a loaded value is the byte at the offset. -/
theorem load_mod {buf : List Nat} {off n v b : Nat} (hl : load buf off (n + 1) = some v)
    (hb : buf[off]? = some b) : v % 256 = b % 256 := by
  unfold load at hl
  split_ifs at hl with hlen
  cases hl
  obtain ⟨hlt, rfl⟩ := List.getElem?_eq_some.mp hb
  rw [List.drop_eq_getElem_cons hlt, List.take_succ_cons]
  simp only [le_value]
  omega

/-- The words of the reply at offsets 4 and 8, its payload at offset 12, and
its request id when the payload is at most four bytes long. -/
theorem form_reply_fields {h : Host} {m : List Nat} {heap : Nat → Nat} {out : List Nat}
    (hok : form_reply h m heap = Step.ok out) :
    ∃ request_id num_bytes num_elems,
      load m 16 8 = some request_id ∧ load m 24 4 = some num_bytes ∧
      load m 28 4 = some num_elems ∧
      load out 4 4 = some num_bytes ∧ load out 8 4 = some num_elems ∧
      (out.drop 12).take num_bytes = (m.drop 32).take num_bytes ∧
      (num_bytes ≤ 4 → load out 16 8 = some request_id) := by
  obtain ⟨rid, nb, ne, h16, h24, h28, hb, ho⟩ := form_reply_bytes hok
  have hplen : ((m.drop 32).take nb).length = nb := by
    simp
    omega
  generalize ((malloc heap m.length).drop 24).drop (nb - 12) = t at ho
  refine ⟨rid, nb, ne, h16, h24, h28, ?_, ?_, ?_, ?_⟩
  · rw [load_at (p := le_bytes 4 24) (f := le_bytes 4 nb)
      (s := le_bytes 4 ne ++ ((m.drop 32).take nb ++
        ((le_bytes 4 MOJO_MESSAGE_HEADER_FLAGS_IS_RESPONSE ++ le_bytes 8 rid).drop nb ++ t)))
      (by rw [ho]; simp only [List.append_assoc])
      (le_bytes_length 4 24) (le_bytes_length 4 nb), le_value_le_bytes,
      Nat.mod_eq_of_lt (load_lt h24)]
  · rw [load_at (p := le_bytes 4 24 ++ le_bytes 4 nb) (f := le_bytes 4 ne)
      (s := (m.drop 32).take nb ++
        ((le_bytes 4 MOJO_MESSAGE_HEADER_FLAGS_IS_RESPONSE ++ le_bytes 8 rid).drop nb ++ t))
      (by rw [ho]; simp only [List.append_assoc]) (by simp [le_bytes_length])
      (le_bytes_length 4 ne), le_value_le_bytes, Nat.mod_eq_of_lt (load_lt h28)]
  · rw [ho, List.drop_left' (by simp [le_bytes_length]), List.take_left' hplen]
  · intro hle
    have hd : (le_bytes 4 MOJO_MESSAGE_HEADER_FLAGS_IS_RESPONSE ++ le_bytes 8 rid).drop nb
        = (le_bytes 4 MOJO_MESSAGE_HEADER_FLAGS_IS_RESPONSE).drop nb ++ le_bytes 8 rid := by
      rw [List.drop_append_of_le_length (by rw [le_bytes_length]; exact hle)]
    rw [load_at (p := (le_bytes 4 24 ++ (le_bytes 4 nb ++ le_bytes 4 ne)) ++
        ((m.drop 32).take nb ++ (le_bytes 4 MOJO_MESSAGE_HEADER_FLAGS_IS_RESPONSE).drop nb))
      (f := le_bytes 8 rid) (s := t) (by rw [ho, hd]; simp only [List.append_assoc])
      (by simp [le_bytes_length]; omega) (le_bytes_length 8 rid), le_value_le_bytes,
      Nat.mod_eq_of_lt (load_lt h16)]

/-- The bytes of `request_of_ones`. -/
theorem request_of_ones_eq (n : Nat) :
    request_of_ones n =
      [24, 0, 0, 0, 1, 0, 0, 0, 0, 0, 0, 0, 1, 0, 0, 0, 0, 0, 0, 0, 0, 0, 0, 0,
        n % 256, n / 256 % 256, n / 256 / 256 % 256, n / 256 / 256 / 256 % 256,
        0, 0, 0, 0] ++ List.replicate n 1 := by
  simp [request_of_ones, words, le_bytes]

/-- A request with more than four payload bytes whose reply does not carry its
request id at offset 16. -/
theorem request_of_ones_reply (n : Nat) (h4 : 4 < n) (hn : n < 2 ^ 32) :
    ∃ out, (serve_echo_request sample_host (delivering (request_of_ones n) 0)).written = [out] ∧
      load (request_of_ones n) 24 4 = some n ∧ load (request_of_ones n) 16 8 = some 0 ∧
      load out 16 8 ≠ some 0 := by
  have hlen : (request_of_ones n).length = 32 + n := by
    rw [request_of_ones_eq]
    simp
    omega
  have l0 : load (request_of_ones n) 0 4 = some 24 := by
    rw [load, if_pos (by omega), request_of_ones_eq]
    rfl
  have l4 : load (request_of_ones n) 4 4 = some 1 := by
    rw [load, if_pos (by omega), request_of_ones_eq]
    rfl
  have l8 : load (request_of_ones n) 8 4 = some 0 := by
    rw [load, if_pos (by omega), request_of_ones_eq]
    rfl
  have l12 : load (request_of_ones n) 12 4 = some MOJO_MESSAGE_HEADER_FLAGS_EXPECTS_RESPONSE := by
    rw [load, if_pos (by omega), request_of_ones_eq]
    rfl
  have l16 : load (request_of_ones n) 16 8 = some 0 := by
    rw [load, if_pos (by omega), request_of_ones_eq]
    rfl
  have l24 : load (request_of_ones n) 24 4 = some n := by
    rw [load, if_pos (by omega), request_of_ones_eq]
    simp only [List.cons_append, List.drop_succ_cons, List.drop_zero, List.take_succ_cons,
      List.take_zero, le_value]
    congr 1
    omega
  have l28 : load (request_of_ones n) 28 4 = some 0 := by
    rw [load, if_pos (by omega), request_of_ones_eq]
    rfl
  have hv : sample_host.mojo_validate_struct_header (request_of_ones n)
      (request_of_ones n).length = true := by
    simp only [sample_host, sample_validate_struct_header, l0, hlen]
    simp
    omega
  obtain ⟨out, hout⟩ := form_reply_of_bounds (h := sample_host) (fun _ => 0) hv l4 l8 l12 l24
    l28 (by omega) (by omega)
  have hw : (serve_echo_request sample_host (delivering (request_of_ones n) 0)).written
      = [out] :=
    written_of_form_reply (by simp [wait_for_readable, delivering, sample_host])
      (by simp [delivering, sample_host]) (by simp [delivering, sample_host]) hout
  refine ⟨out, hw, l24, l16, ?_⟩
  obtain ⟨rid, nb, ne, -, g24, -, -, ho⟩ := form_reply_bytes hout
  rw [l24] at g24
  cases g24
  have hH : (le_bytes 4 24 ++ (le_bytes 4 n ++ le_bytes 4 ne)).length = 12 := by
    simp [le_bytes_length]
  have hP : ((request_of_ones n).drop 32).take n = List.replicate n 1 := by
    rw [request_of_ones_eq]
    simp
  have hbyte : out[16]? = some 1 := by
    rw [ho, List.getElem?_append_right (by rw [hH]; omega), hH, hP,
      List.getElem?_append_left (by simp; omega), List.getElem?_replicate, if_pos h4]
  intro hl
  have := load_mod hl hbyte
  omega

end Echo
/-! ## The claims -/

namespace Echo

/-- C1 (the code departs from it): `serve_echo_request` serves the request of
`echo_test`, whose flags are `EXPECTS_RESPONSE`, and the 32-bit word at byte
offset 12 of the reply it writes is `0x42424143`, the payload of the request,
not `IS_RESPONSE`. -/
theorem echo_test_reply_flags :
    ∃ out, (serve_echo_request sample_host (delivering echo_test_buf 0)).written = [out] ∧
      (serve_echo_request sample_host (delivering echo_test_buf 0)).returned = some true ∧
      load echo_test_buf 12 4 = some MOJO_MESSAGE_HEADER_FLAGS_EXPECTS_RESPONSE ∧
      load echo_test_buf 32 4 = some 0x42424143 ∧
      load out 12 4 = some 0x42424143 ∧
      load out 12 4 ≠ some MOJO_MESSAGE_HEADER_FLAGS_IS_RESPONSE :=
  ⟨echo_test_reply, by decide⟩

/-- C2 (the code departs from it): `serve_echo_request` serves a 40-byte
request with `request_id` 7 and eight payload bytes, and the 64-bit word at
byte offset 16 of the reply is `0x44434241`, the second half of the payload,
not 7. -/
theorem long_request_reply_request_id :
    ∃ out, (serve_echo_request sample_host (delivering long_request 0)).written = [out] ∧
      (serve_echo_request sample_host (delivering long_request 0)).returned = some true ∧
      load long_request 16 8 = some 7 ∧
      load long_request 24 4 = some 8 ∧
      load out 16 8 = some 0x44434241 :=
  ⟨[24, 0, 0, 0, 8, 0, 0, 0, 8, 0, 0, 0, 67, 65, 66, 66, 65, 66, 67, 68, 0, 0, 0, 0,
    0, 0, 0, 0, 0, 0, 0, 0, 0, 0, 0, 0, 0, 0, 0, 0], by decide⟩

/-- C3 (the code departs from it): `serve_echo_request` serves the request of
`echo_test` (four payload bytes C, A, B, B), and from byte offset 24 on the
reply holds what the heap block held before (here the byte `0xAA`): the words
at offsets 24 and 28 are not 4 and the bytes from offset 32 are not the
payload, which sits at offset 12 instead. -/
theorem echo_test_reply_string_position :
    ∃ out, (serve_echo_request sample_host (delivering echo_test_buf 0xAA)).written = [out] ∧
      load echo_test_buf 24 4 = some 4 ∧ load echo_test_buf 28 4 = some 4 ∧
      (echo_test_buf.drop 32).take 4 = [67, 65, 66, 66] ∧
      load out 24 4 = some 0xAAAAAAAA ∧ load out 28 4 = some 0xAAAAAAAA ∧
      (out.drop 32).take 4 = [0xAA, 0xAA, 0xAA, 0xAA] ∧
      (out.drop 12).take 4 = [67, 65, 66, 66] :=
  ⟨[24, 0, 0, 0, 4, 0, 0, 0, 4, 0, 0, 0, 67, 65, 66, 66, 0, 0, 0, 0, 0, 0, 0, 0,
    170, 170, 170, 170, 170, 170, 170, 170, 170, 170, 170, 170], by decide⟩

/-- C4: when the 32-bit word at byte offset 4 of the inbound message (the
version) is not 1, `serve_echo_request` returns `false` and passes no message
to the channel write. -/
theorem serve_rejects_version (h : Host) (k : Kernel) (version : Nat)
    (hl : load k.message 4 4 = some version) (hv : version ≠ 1) :
    (serve_echo_request h k).returned = some false ∧
      (serve_echo_request h k).written = [] :=
  serve_of_assert_failed (form_reply_version hl hv)

/-- C4 at a concrete input: the request of `echo_test` with version 2. -/
theorem serve_rejects_version_witness :
    load (delivering request_version_2 0).message 4 4 = some 2 ∧
      (serve_echo_request sample_host (delivering request_version_2 0)).returned = some false ∧
      (serve_echo_request sample_host (delivering request_version_2 0)).written = [] :=
  ⟨by decide,
    serve_rejects_version sample_host (delivering request_version_2 0) 2 (by decide)
      (by decide)⟩

/-- C5: when the 32-bit word at byte offset 12 of the inbound message (the
flags) is anything but `EXPECTS_RESPONSE`, `serve_echo_request` returns `false`
and passes no message to the channel write. -/
theorem serve_rejects_flags (h : Host) (k : Kernel) (flags : Nat)
    (hl : load k.message 12 4 = some flags)
    (hf : flags ≠ MOJO_MESSAGE_HEADER_FLAGS_EXPECTS_RESPONSE) :
    (serve_echo_request h k).returned = some false ∧
      (serve_echo_request h k).written = [] :=
  serve_of_assert_failed (form_reply_flags hl hf)

/-- C5 at a concrete input: the request of `echo_test` with flags
`EXPECTS_RESPONSE | IS_RESPONSE`. -/
theorem serve_rejects_flags_witness :
    load (delivering request_flags_3 0).message 12 4 = some 3 ∧
      (serve_echo_request sample_host (delivering request_flags_3 0)).returned = some false ∧
      (serve_echo_request sample_host (delivering request_flags_3 0)).written = [] :=
  ⟨by decide,
    serve_rejects_flags sample_host (delivering request_flags_3 0) 3 (by decide)
      (by decide)⟩

/-- C6: when the 32-bit word at byte offset 8 of the inbound message (the
name) is not 0, `serve_echo_request` returns `false` and passes no message to
the channel write. -/
theorem serve_rejects_name (h : Host) (k : Kernel) (name : Nat)
    (hl : load k.message 8 4 = some name) (hn : name ≠ 0) :
    (serve_echo_request h k).returned = some false ∧
      (serve_echo_request h k).written = [] :=
  serve_of_assert_failed (form_reply_name hl hn)

/-- C6 at a concrete input: the request of `echo_test` with name 5. -/
theorem serve_rejects_name_witness :
    load (delivering request_name_5 0).message 8 4 = some 5 ∧
      (serve_echo_request sample_host (delivering request_name_5 0)).returned = some false ∧
      (serve_echo_request sample_host (delivering request_name_5 0)).written = [] :=
  ⟨by decide,
    serve_rejects_name sample_host (delivering request_name_5 0) 5 (by decide) (by decide)⟩

/-- C7: the message that `serve_echo_request` passes to the channel write has
the byte length of the message it read. -/
theorem reply_length_eq (h : Host) (k : Kernel) (out : List Nat)
    (hw : (serve_echo_request h k).written = [out]) :
    out.length = k.message.length :=
  form_reply_length (written_singleton hw)

/-- C7 at a concrete input: the 36-byte request of `echo_test`. -/
theorem reply_length_eq_witness :
    (serve_echo_request sample_host (delivering echo_test_buf 0)).written = [echo_test_reply] ∧
      echo_test_reply.length = (delivering echo_test_buf 0).message.length :=
  ⟨by decide,
    reply_length_eq sample_host (delivering echo_test_buf 0) echo_test_reply (by decide)⟩

/-- C8 as stated fails: for the request of `echo_test` the word at byte offset
4 of the reply is 4, not the version 1; and for the same request declaring 32
bytes in its struct header the word at byte offset 0 of the reply is 24, not
32. -/
theorem reply_struct_header_not_copied :
    (∃ out, (serve_echo_request sample_host (delivering echo_test_buf 0)).written = [out] ∧
      load echo_test_buf 4 4 = some 1 ∧ load out 4 4 = some 4) ∧
    (∃ out, (serve_echo_request sample_host (delivering request_declaring_32 0)).written
        = [out] ∧
      load request_declaring_32 0 4 = some 32 ∧ load out 0 4 = some 24) :=
  ⟨⟨echo_test_reply, by decide⟩,
    ⟨[24, 0, 0, 0, 4, 0, 0, 0, 4, 0, 0, 0, 67, 65, 66, 66, 0, 0, 0, 0, 0, 0, 0, 0,
      0, 0, 0, 0, 0, 0, 0, 0, 0, 0, 0, 0], by decide⟩⟩

/-- C8, amended: the 32-bit word at byte offset 0 of every reply that
`serve_echo_request` writes is 24, the size of the message header with request
id, whatever length the request declares. -/
theorem reply_num_bytes_is_header_size (h : Host) (k : Kernel) (out : List Nat)
    (hw : (serve_echo_request h k).written = [out]) :
    load out 0 4 = some 24 :=
  form_reply_num_bytes (written_singleton hw)

/-- C8, amended, at a concrete input: a request declaring 32 bytes. -/
theorem reply_num_bytes_is_header_size_witness :
    (serve_echo_request sample_host (delivering request_declaring_32 0)).written
        = [echo_test_reply] ∧
      load echo_test_reply 0 4 = some 24 :=
  ⟨by decide,
    reply_num_bytes_is_header_size sample_host (delivering request_declaring_32 0)
      echo_test_reply (by decide)⟩

/-- C9: when the wait fails, or succeeds without the readable signal among the
satisfied signals, `wait_for_readable` returns `false` and `serve_echo_request`
returns `false` having made no message read and no message write. -/
theorem serve_not_readable (h : Host) (k : Kernel)
    (hw : k.wait_status ≠ h.NO_ERROR ∨ k.satisfied_signals &&& h.MX_SIGNAL_READABLE = 0) :
    wait_for_readable h k = false ∧
      (serve_echo_request h k).returned = some false ∧
      (serve_echo_request h k).message_reads = 0 ∧
      (serve_echo_request h k).written = [] := by
  have hwait : wait_for_readable h k = false := by
    unfold wait_for_readable
    rcases hw with hw | hw
    · rw [if_pos hw]
    · split_ifs <;> rfl
  refine ⟨hwait, ?_⟩
  unfold serve_echo_request
  rw [if_pos hwait]
  simp [Outcome.written, Outcome.message_reads]

/-- C9 at a concrete input: the wait reports only a peer-closed signal. -/
theorem serve_not_readable_witness :
    peer_closed.satisfied_signals &&& sample_host.MX_SIGNAL_READABLE = 0 ∧
      wait_for_readable sample_host peer_closed = false ∧
      (serve_echo_request sample_host peer_closed).returned = some false ∧
      (serve_echo_request sample_host peer_closed).message_reads = 0 ∧
      (serve_echo_request sample_host peer_closed).written = [] :=
  ⟨by decide, serve_not_readable sample_host peer_closed (Or.inr (by decide))⟩

/-- C10 as stated fails: three messages pass the struct-header validation with
version 1, name 0 and flags `EXPECTS_RESPONSE` while every system call
succeeds, and no run returns `true`: the request of `echo_test` announcing
eight characters, the same announcing eight bytes, and the same cut after its
header each make the body read past the end of `in_msg_buf`. -/
theorem servable_request_leaves_buffer :
    (Servable sample_host (delivering request_8_elems 0) ∧
      (serve_echo_request sample_host (delivering request_8_elems 0)).returned = none ∧
      (serve_echo_request sample_host (delivering request_8_elems 0)).written = []) ∧
    (Servable sample_host (delivering request_8_bytes 0) ∧
      (serve_echo_request sample_host (delivering request_8_bytes 0)).returned = none ∧
      (serve_echo_request sample_host (delivering request_8_bytes 0)).written = []) ∧
    (Servable sample_host (delivering header_only_request 0) ∧
      (serve_echo_request sample_host (delivering header_only_request 0)).returned = none ∧
      (serve_echo_request sample_host (delivering header_only_request 0)).written = []) := by
  decide

/-- C10, amended: when the handle is readable, the reads and the write
succeed, the message passes the struct-header validation with version 1, name
0 and flags `EXPECTS_RESPONSE`, and the message holds, from byte offset 32 on,
the `str_num_elems` characters and the `str_num_bytes` bytes that its string
header announces, `serve_echo_request` returns `true` and passes exactly one
message to the channel write. -/
theorem serve_servable_in_bounds (h : Host) (k : Kernel) (num_bytes num_elems : Nat)
    (hs : Servable h k)
    (h24 : load k.message 24 4 = some num_bytes)
    (h28 : load k.message 28 4 = some num_elems)
    (hnb : 32 + num_bytes ≤ k.message.length)
    (hne : 32 + num_elems ≤ k.message.length) :
    (serve_echo_request h k).returned = some true ∧
      ∃ out, (serve_echo_request h k).written = [out] := by
  obtain ⟨hwait, hsize, hread, hwrite, hv, h4, h8, h12⟩ := hs
  obtain ⟨out, hout⟩ := form_reply_of_bounds k.heap hv h4 h8 h12 h24 h28 hnb hne
  unfold serve_echo_request
  rw [hout]
  simp [hwait, hsize, hread, hwrite, Outcome.written]

/-- C10, amended, at a concrete input: the request of `echo_test`. -/
theorem serve_servable_in_bounds_witness :
    Servable sample_host (delivering echo_test_buf 0) ∧
      (serve_echo_request sample_host (delivering echo_test_buf 0)).returned = some true ∧
      ∃ out, (serve_echo_request sample_host (delivering echo_test_buf 0)).written = [out] :=
  ⟨by decide,
    serve_servable_in_bounds sample_host (delivering echo_test_buf 0) 4 4 (by decide)
      (by decide) (by decide) (by decide) (by decide)⟩

/-- C11 as stated fails, in two ways. A request with the payload Z, Z, Z, Z
is served and then, in a heap block that still holds the bytes of that
request, (1) the request of `echo_test`: its reply is not the one written when
it is served alone in a zeroed block, it carries the string header and the
payload of the first request from offset 24 on; (2) the request with three
payload bytes and one byte of padding: its string header and payload end at
offset 35, and the byte at offset 35 of its reply is the last byte of the
first request, where the reply written when it is served alone holds 0. -/
theorem second_reply_carries_first_request :
    (∃ out1 out2,
      echo_test_loop sample_host
          [delivering request_zzzz 0, recycling echo_test_buf request_zzzz]
          { inbound := [], outbound := [] }
        = some (some true, { inbound := [], outbound := [out1, out2] }) ∧
      (serve_echo_request sample_host (delivering echo_test_buf 0)).written
        = [echo_test_reply] ∧
      out2 ≠ echo_test_reply ∧
      (request_zzzz.drop 32).take 4 = [0x5A, 0x5A, 0x5A, 0x5A] ∧
      (out2.drop 32).take 4 = [0x5A, 0x5A, 0x5A, 0x5A]) ∧
    (∃ out1 out2 alone,
      echo_test_loop sample_host
          [delivering request_zzzz 0, recycling request_3_bytes request_zzzz]
          { inbound := [], outbound := [] }
        = some (some true, { inbound := [], outbound := [out1, out2] }) ∧
      (serve_echo_request sample_host (delivering request_3_bytes 0)).written = [alone] ∧
      out2 ≠ alone ∧
      request_3_bytes.length = 36 ∧ load request_3_bytes 24 4 = some 3 ∧
      request_zzzz[35]? = some 0x5A ∧ out2[35]? = some 0x5A ∧ alone[35]? = some 0) :=
  ⟨⟨[24, 0, 0, 0, 4, 0, 0, 0, 4, 0, 0, 0, 90, 90, 90, 90, 9, 0, 0, 0, 0, 0, 0, 0,
        0, 0, 0, 0, 0, 0, 0, 0, 0, 0, 0, 0],
      [24, 0, 0, 0, 4, 0, 0, 0, 4, 0, 0, 0, 67, 65, 66, 66, 0, 0, 0, 0, 0, 0, 0, 0,
        4, 0, 0, 0, 4, 0, 0, 0, 90, 90, 90, 90], by decide⟩,
    ⟨[24, 0, 0, 0, 4, 0, 0, 0, 4, 0, 0, 0, 90, 90, 90, 90, 9, 0, 0, 0, 0, 0, 0, 0,
        0, 0, 0, 0, 0, 0, 0, 0, 0, 0, 0, 0],
      [24, 0, 0, 0, 3, 0, 0, 0, 3, 0, 0, 0, 67, 65, 66, 0, 0, 0, 0, 0, 0, 0, 0, 0,
        4, 0, 0, 0, 4, 0, 0, 0, 90, 90, 90, 90],
      [24, 0, 0, 0, 3, 0, 0, 0, 3, 0, 0, 0, 67, 65, 66, 0, 0, 0, 0, 0, 0, 0, 0, 0,
        0, 0, 0, 0, 0, 0, 0, 0, 0, 0, 0, 0], by decide⟩⟩

/-- C11, amended: when `n` requests are written to a channel with nothing
pending and served one after another, each call of `serve_echo_request`
returning `true`, every request is taken off the channel and exactly `n`
replies are on it at the end, in the order of the requests; the reply at each
position is the one written by any call that serves the request of that
position alone in a heap block holding the same bytes from offset 24 on. -/
theorem echo_test_loop_replies (h : Host) (ks : List Kernel)
    (hacc : ∀ k ∈ ks, (serve_echo_request h k).returned = some true) :
    ∃ replies, echo_test_loop h ks { inbound := [], outbound := [] }
        = some (some true, { inbound := [], outbound := replies }) ∧
      replies.length = ks.length ∧
      ∀ (i : Nat) (k k1 : Kernel) (out1 : List Nat), ks[i]? = some k →
        k1.message = k.message → (∀ j, 24 ≤ j → k1.heap j % 256 = k.heap j % 256) →
        (serve_echo_request h k1).written = [out1] →
        replies[i]? = some out1 := by
  obtain ⟨replies, hrun, hlen, hat⟩ := echo_test_loop_written h ks [] hacc
  refine ⟨replies, by simpa using hrun, hlen, ?_⟩
  intro i k k1 out1 hi hm hheap hw1
  obtain ⟨out, ho, hw⟩ := hat i k hi
  have hf := written_singleton hw
  have hf1 := written_singleton hw1
  rw [hm] at hf1
  rw [ho, (form_reply_heap_congr hf hf1).2.2 hheap]

/-- C11, amended, at a concrete input: the three rounds of `echo_test`, the
second and third replies formed in blocks that hold the previous request and
the previous reply. -/
theorem echo_test_loop_replies_witness :
    ∃ replies,
      echo_test_loop sample_host
          [delivering echo_test_buf 0, recycling echo_test_buf echo_test_buf,
            recycling echo_test_buf echo_test_reply]
          { inbound := [], outbound := [] }
        = some (some true, { inbound := [], outbound := replies }) ∧
      replies.length = 3 ∧ replies[2]? = some echo_test_reply := by
  have hacc : ∀ k ∈ [delivering echo_test_buf 0, recycling echo_test_buf echo_test_buf,
      recycling echo_test_buf echo_test_reply],
      (serve_echo_request sample_host k).returned = some true := by
    intro k hk
    simp only [List.mem_cons, List.mem_singleton, List.not_mem_nil, or_false] at hk
    rcases hk with rfl | rfl | rfl <;> decide
  obtain ⟨replies, hrun, hlen, hat⟩ := echo_test_loop_replies sample_host _ hacc
  refine ⟨replies, hrun, hlen, ?_⟩
  exact hat 2 (recycling echo_test_buf echo_test_reply) (delivering echo_test_buf 0)
    echo_test_reply rfl rfl
    (fun j hj => by
      show 0 % 256 = echo_test_reply.getD j 0 % 256
      have hnone : echo_test_reply[j]? = none ∨ echo_test_reply[j]? = some 0 := by
        by_cases hlt : j < 36
        · right
          interval_cases j <;> rfl
        · left
          exact List.getElem?_eq_none (by simp [echo_test_reply]; omega)
      rcases hnone with hn | hn <;> simp [List.getD_eq_getElem?_getD, hn])
    (by decide)

/-- C12 (the code departs from it): the reply that `serve_echo_request` writes
for the request of `echo_test`, with only its flags word reset to
`EXPECTS_RESPONSE`, carries 4 in its version word; served again it is
rejected: the call returns `false` and writes no reply. -/
theorem echo_test_reply_served_again :
    (serve_echo_request sample_host (delivering echo_test_buf 0)).written
        = [echo_test_reply] ∧
      store echo_test_reply 12 4 MOJO_MESSAGE_HEADER_FLAGS_EXPECTS_RESPONSE
        = some echo_test_reply_as_request ∧
      load echo_test_reply_as_request 4 4 = some 4 ∧
      (serve_echo_request sample_host (delivering echo_test_reply_as_request 0)).returned
        = some false ∧
      (serve_echo_request sample_host (delivering echo_test_reply_as_request 0)).written
        = [] := by
  decide

/-- C13 (the code departs from it): `serve_echo_request` serves the request of
`echo_test`, whose `str_num_elems` is 4, and the 32-bit word at byte offset 8
of the reply is 4, not 0. -/
theorem echo_test_reply_name :
    ∃ out, (serve_echo_request sample_host (delivering echo_test_buf 0)).written = [out] ∧
      load echo_test_buf 28 4 = some 4 ∧ load out 8 4 = some 4 :=
  ⟨echo_test_reply, by decide⟩

/-- C14 as stated fails: the request of `echo_test` announcing eight
characters is 36 bytes long and announces four bytes, so it meets
`length >= 32` and `str_num_bytes + 32 <= length`, and passes every check;
the body reads past the end of `in_msg_buf`. -/
theorem bound_on_num_bytes_not_enough :
    32 ≤ request_8_elems.length ∧ load request_8_elems 24 4 = some 4 ∧
      4 + 32 ≤ request_8_elems.length ∧ load request_8_elems 28 4 = some 8 ∧
      Servable sample_host (delivering request_8_elems 0) ∧
      form_reply sample_host request_8_elems (fun _ => 0) = Step.out_of_bounds ∧
      (serve_echo_request sample_host (delivering request_8_elems 0)).returned = none := by
  decide

/-- C14, amended: when the inbound message is at least 32 bytes long and
holds, from byte offset 32 on, both the `str_num_bytes` bytes and the
`str_num_elems` characters that its string header announces, every access
that `serve_echo_request` makes stays inside `in_msg_buf` and `out_msg_buf`:
the call returns a value. -/
theorem serve_in_bounds (h : Host) (k : Kernel) (num_bytes num_elems : Nat)
    (h24 : load k.message 24 4 = some num_bytes)
    (h28 : load k.message 28 4 = some num_elems)
    (hnb : num_bytes + 32 ≤ k.message.length)
    (hne : num_elems + 32 ≤ k.message.length) :
    form_reply h k.message k.heap ≠ Step.out_of_bounds ∧
      (serve_echo_request h k).returned ≠ none := by
  have hf := form_reply_in_bounds h k.message k.heap h24 h28 (by omega) (by omega)
  refine ⟨hf, ?_⟩
  unfold serve_echo_request
  split_ifs <;> try simp
  split <;> simp_all

/-- C14, amended, at a concrete input: the request of `echo_test`. -/
theorem serve_in_bounds_witness :
    form_reply sample_host (delivering echo_test_buf 0).message (delivering echo_test_buf 0).heap
        ≠ Step.out_of_bounds ∧
      (serve_echo_request sample_host (delivering echo_test_buf 0)).returned ≠ none :=
  serve_in_bounds sample_host (delivering echo_test_buf 0) 4 4 (by decide) (by decide)
    (by decide) (by decide)

/-- C15: every reply that `serve_echo_request` writes has 24 in its word at
byte offset 0, the `str_num_bytes` of the request at offset 4, its
`str_num_elems` at offset 8 and its `str_num_bytes` payload bytes from offset
12 on; when `str_num_bytes` is at most 4 the 64-bit word at offset 16 is the
`request_id` of the request, when it is more the bytes from offset 16 on are
the payload bytes from the fifth on, and for every `str_num_bytes` above 4
some request is served whose reply does not carry its `request_id` there. -/
theorem reply_layout :
    (∀ (h : Host) (k : Kernel) (out : List Nat), (serve_echo_request h k).written = [out] →
      ∃ request_id num_bytes num_elems,
        load k.message 16 8 = some request_id ∧ load k.message 24 4 = some num_bytes ∧
        load k.message 28 4 = some num_elems ∧
        load out 0 4 = some 24 ∧ load out 4 4 = some num_bytes ∧
        load out 8 4 = some num_elems ∧
        (out.drop 12).take num_bytes = (k.message.drop 32).take num_bytes ∧
        (num_bytes ≤ 4 → load out 16 8 = some request_id) ∧
        (4 < num_bytes →
          (out.drop 16).take (num_bytes - 4) = (k.message.drop 36).take (num_bytes - 4))) ∧
    (∀ num_bytes, 4 < num_bytes → num_bytes < 2 ^ 32 →
      ∃ (h : Host) (k : Kernel) (out : List Nat) (request_id : Nat),
        (serve_echo_request h k).written = [out] ∧
        load k.message 24 4 = some num_bytes ∧ load k.message 16 8 = some request_id ∧
        load out 16 8 ≠ some request_id) := by
  constructor
  · intro h k out hw
    have hf := written_singleton hw
    obtain ⟨rid, nb, ne, h16, h24, h28, o4, o8, op, oid⟩ := form_reply_fields hf
    refine ⟨rid, nb, ne, h16, h24, h28, form_reply_num_bytes hf, o4, o8, op, oid, ?_⟩
    intro _
    have hd := congrArg (List.drop 4) op
    rw [List.drop_take, List.drop_take, List.drop_drop, List.drop_drop] at hd
    exact hd
  · intro nb h4 hn
    obtain ⟨out, hw, l24, l16, hne⟩ := request_of_ones_reply nb h4 hn
    exact ⟨sample_host, delivering (request_of_ones nb) 0, out, 0, hw, l24, l16, hne⟩

/-- C15 at concrete inputs: the layout of the reply to the request of
`echo_test`, and a request with eight payload bytes whose `request_id` is lost. -/
theorem reply_layout_witness :
    (∃ request_id num_bytes num_elems,
        load (delivering echo_test_buf 0).message 16 8 = some request_id ∧
        load (delivering echo_test_buf 0).message 24 4 = some num_bytes ∧
        load (delivering echo_test_buf 0).message 28 4 = some num_elems ∧
        load echo_test_reply 0 4 = some 24 ∧ load echo_test_reply 4 4 = some num_bytes ∧
        load echo_test_reply 8 4 = some num_elems ∧
        (echo_test_reply.drop 12).take num_bytes
          = ((delivering echo_test_buf 0).message.drop 32).take num_bytes ∧
        (num_bytes ≤ 4 → load echo_test_reply 16 8 = some request_id) ∧
        (4 < num_bytes →
          (echo_test_reply.drop 16).take (num_bytes - 4)
            = ((delivering echo_test_buf 0).message.drop 36).take (num_bytes - 4))) ∧
    (∃ (h : Host) (k : Kernel) (out : List Nat) (request_id : Nat),
        (serve_echo_request h k).written = [out] ∧
        load k.message 24 4 = some 8 ∧ load k.message 16 8 = some request_id ∧
        load out 16 8 ≠ some request_id) :=
  ⟨reply_layout.1 sample_host (delivering echo_test_buf 0) echo_test_reply (by decide),
    reply_layout.2 8 (by decide) (by decide)⟩

/-- C16 as stated fails: served in a zeroed heap block and in a block filled
with the byte `0xAA`, the request of `echo_test` gets two different replies,
and so does the same request with three payload bytes and one byte of padding. -/
theorem reply_differs_with_heap :
    (∃ out out1,
      (serve_echo_request sample_host (delivering echo_test_buf 0)).written = [out] ∧
      (serve_echo_request sample_host (delivering echo_test_buf 0xAA)).written = [out1] ∧
      out ≠ out1) ∧
    (∃ out out1,
      (serve_echo_request sample_host (delivering request_3_bytes 0)).written = [out] ∧
      (serve_echo_request sample_host (delivering request_3_bytes 0xAA)).written = [out1] ∧
      out ≠ out1) :=
  ⟨⟨echo_test_reply,
      [24, 0, 0, 0, 4, 0, 0, 0, 4, 0, 0, 0, 67, 65, 66, 66, 0, 0, 0, 0, 0, 0, 0, 0,
        170, 170, 170, 170, 170, 170, 170, 170, 170, 170, 170, 170], by decide⟩,
    ⟨[24, 0, 0, 0, 3, 0, 0, 0, 3, 0, 0, 0, 67, 65, 66, 0, 0, 0, 0, 0, 0, 0, 0, 0,
        0, 0, 0, 0, 0, 0, 0, 0, 0, 0, 0, 0],
      [24, 0, 0, 0, 3, 0, 0, 0, 3, 0, 0, 0, 67, 65, 66, 0, 0, 0, 0, 0, 0, 0, 0, 0,
        170, 170, 170, 170, 170, 170, 170, 170, 170, 170, 170, 170], by decide⟩⟩

/-- C16, amended: two calls of `serve_echo_request` that accept the same
message in heap blocks of different contents write replies of the same length
with the same first 24 bytes, and the same reply when the two blocks hold the
same bytes from offset 24 on. -/
theorem reply_depends_on_heap_from_24 (h : Host) (k k1 : Kernel) (out out1 : List Nat)
    (hm : k1.message = k.message)
    (hw : (serve_echo_request h k).written = [out])
    (hw1 : (serve_echo_request h k1).written = [out1]) :
    out1.length = out.length ∧ out1.take 24 = out.take 24 ∧
      ((∀ j, 24 ≤ j → k1.heap j % 256 = k.heap j % 256) → out1 = out) := by
  have hf := written_singleton hw
  have hf1 := written_singleton hw1
  rw [hm] at hf1
  exact form_reply_heap_congr hf hf1

/-- C16, amended, at a concrete input: the request of `echo_test` served in a
zeroed block and in a block filled with `0xAA`. -/
theorem reply_depends_on_heap_from_24_witness :
    (serve_echo_request sample_host (delivering echo_test_buf 0xAA)).written
        = [[24, 0, 0, 0, 4, 0, 0, 0, 4, 0, 0, 0, 67, 65, 66, 66, 0, 0, 0, 0, 0, 0, 0, 0,
          170, 170, 170, 170, 170, 170, 170, 170, 170, 170, 170, 170]] ∧
      ([24, 0, 0, 0, 4, 0, 0, 0, 4, 0, 0, 0, 67, 65, 66, 66, 0, 0, 0, 0, 0, 0, 0, 0,
          170, 170, 170, 170, 170, 170, 170, 170, 170, 170, 170, 170] : List Nat).take 24
        = echo_test_reply.take 24 :=
  ⟨by decide,
    (reply_depends_on_heap_from_24 sample_host (delivering echo_test_buf 0)
      (delivering echo_test_buf 0xAA) echo_test_reply _ rfl (by decide) (by decide)).2.1⟩

end Echo

namespace Musl

/-- C17: given that `ZX_ERR_BAD_STATE` is not 0 and that `thrd_success`,
`thrd_busy` and `thrd_error` are three different values, `mtx_trylock` returns
`thrd_success` exactly when the status of `sync_mtx_trylock` is 0, `thrd_busy`
exactly when it is `ZX_ERR_BAD_STATE`, and `thrd_error` exactly when it is
neither. -/
theorem mtx_trylock_cases (c : Threads) (status : Int)
    (hz : c.ZX_ERR_BAD_STATE ≠ 0) (hsb : c.thrd_success ≠ c.thrd_busy)
    (hse : c.thrd_success ≠ c.thrd_error) (hbe : c.thrd_busy ≠ c.thrd_error) :
    (mtx_trylock c status = c.thrd_success ↔ status = 0) ∧
      (mtx_trylock c status = c.thrd_busy ↔ status = c.ZX_ERR_BAD_STATE) ∧
      (mtx_trylock c status = c.thrd_error ↔
        status ≠ 0 ∧ status ≠ c.ZX_ERR_BAD_STATE) := by
  unfold mtx_trylock
  by_cases h0 : status = 0
  · have hb : status ≠ c.ZX_ERR_BAD_STATE := fun hs => hz (hs ▸ h0)
    simp [h0, hsb, hse, hz.symm]
  · by_cases h1 : status = c.ZX_ERR_BAD_STATE
    · simp [← h1, h0, hbe, hsb.symm]
    · simp [h0, h1, hse.symm, hbe.symm]

/-- C17 at a concrete input: the status `ZX_ERR_BAD_STATE` under the sample values. -/
theorem mtx_trylock_cases_witness :
    (mtx_trylock sample_threads (-20) = sample_threads.thrd_success ↔ (-20 : Int) = 0) ∧
      (mtx_trylock sample_threads (-20) = sample_threads.thrd_busy ↔
        (-20 : Int) = sample_threads.ZX_ERR_BAD_STATE) ∧
      (mtx_trylock sample_threads (-20) = sample_threads.thrd_error ↔
        (-20 : Int) ≠ 0 ∧ (-20 : Int) ≠ sample_threads.ZX_ERR_BAD_STATE) :=
  mtx_trylock_cases sample_threads (-20) (by decide) (by decide) (by decide) (by decide)

end Musl
